import Mathlib

/-!
Shallow embedding of the MIES NWB reader (`neuroanalysis/miesnwb.py`) and
proofs about its notebook-reconciliation and derived-recording behaviour.

Modelling conventions, used throughout:

* A numpy float cell of the lab-notebook table is modelled as `Option ℚ`:
  `none` stands for NaN (an unset measurement), `some q` for a finite value.
  Infinities do not occur in notebook data, so `np.isnan x` is `Option.isNone`
  and `np.isfinite x` is `Option.isSome` of the modelled cell.
* A notebook row (`nb[i]`, a fields × channels array) is a total function
  `Nat → Nat → Option ℚ`; the scan only ever reads in-range positions.
* Python exceptions are an explicit error type `PyErr` carried in `Except`.
* Python `int()` on a float truncates toward zero (`truncQ`); Python `/` on
  floats is exact division, modelled over `ℚ`.
* Python `datetime` values are points on an absolute time axis, modelled as
  rational seconds measured from a fixed proleptic-Gregorian day origin
  (`datetimeSec`); `timedelta` subtraction is ordinary subtraction there.
-/

namespace Mies

/-- The Python exceptions that the modelled code paths can raise. -/
inductive PyErr where
  | stopIteration
  | valueError
  | keyError
  | attributeError
  deriving DecidableEq, Repr

/-- One lab-notebook row: field index ↦ channel index ↦ cell
(`nb[i][field][chan]`), with `none` modelling NaN. -/
abbrev Row := Nat → Nat → Option ℚ

/-- The raw numerical lab-notebook table (`numericalValues`), already
materialized as an array: `nRows` rows, each a fields × `nChans` block. -/
structure NBTable where
  nRows : Nat
  nChans : Nat
  row : Nat → Row

/-- One masked-assignment step of `miesnwb.py` lines 86-87 / 96-97:
`rec[mask] = rec2[mask]` with `mask = ~np.isnan(rec2)`.  The new value `b`
wins whenever it is non-NaN; an existing value is kept only under a NaN. -/
def overlayCell (a b : Option ℚ) : Option ℚ := if b.isSome then b else a

/-- Whole-row overlay of non-NaN entries of `r2` onto `r1`. -/
def overlayRow (r1 r2 : Row) : Row := fun f c => overlayCell (r1 f c) (r2 f c)

/-- Python `int()` applied to a float: truncation toward zero. -/
def truncQ (q : ℚ) : Int := if q < 0 then ⌈q⌉ else ⌊q⌋

/-- The last non-NaN value among a list of cells, if any (spec-side notion
used to characterise the sweep-record merge). -/
def lastSome : List (Option ℚ) → Option ℚ
  | [] => none
  | x :: xs =>
    match lastSome xs with
    | some v => some v
    | none => x

/-- The first non-NaN value among a list of cells, if any (the value the
spec's "never overwrite an existing non-NaN value" sentence would produce). -/
def firstSome : List (Option ℚ) → Option ℚ
  | [] => none
  | x :: xs =>
    match x with
    | some v => some v
    | none => firstSome xs

/-- `any(np.isfinite(nb[i][f]))`: some channel of field `f` in row `i` holds a
finite value. -/
def anyFiniteAt (t : NBTable) (i f : Nat) : Bool :=
  (List.range t.nChans).any fun c => (t.row i f c).isSome

/-- Classification outcome for one notebook row (`miesnwb.py` lines 59-80). -/
inductive RowClass where
  | tpDisc
  | tpHeur
  | sweep
  | skip
  deriving DecidableEq, Repr

/-- Row classification, `miesnwb.py` lines 59-80.  `est` is
`nb_fields.get('EntrySourceType', None)`; `peak` and `dur` are the indices of
`'TP Peak Resistance'` and `'TP Pulse Duration'`.
If the discriminant field exists and its channel-0 value is finite, value `0`
marks a sweep record and anything else a test-pulse record (`tpDisc`).
Otherwise, for any row but the last, a finite peak-resistance value here
followed by a finite pulse-duration value in the next row marks the legacy
test-pulse pair (`tpHeur`); failing that, a finite sweep number (field 0,
channel 0) marks a sweep record.  The last row falls through unclassified. -/
def classifyRow (t : NBTable) (est : Option Nat) (peak dur : Nat) (i : Nat) :
    RowClass :=
  match est.bind fun e => t.row i e 0 with
  | some v => if v = 0 then .sweep else .tpDisc
  | none =>
    if i + 1 < t.nRows then
      if anyFiniteAt t i peak && anyFiniteAt t (i + 1) dur then .tpHeur
      else if (t.row i 0 0).isSome then .sweep else .skip
    else .skip

/-- The mutable scan state of `MiesNwb.notebook`: `sweep_entries` (an ordered
dict, modelled as an insertion-ordered association list) and `tp_entries`. -/
structure ScanSt where
  sweeps : List (Int × Row)
  tps : List Row

/-- In-place update of an existing key of `sweep_entries`
(`sweep_entries[sweep_num][mask] = rec[mask]`, lines 96-97). -/
def updSweep (k : Int) (r : Row) : List (Int × Row) → List (Int × Row)
  | [] => []
  | (k', r') :: rest =>
    if k == k' then (k', overlayRow r' r) :: rest else (k', r') :: updSweep k r rest

/-- Lines 93-97: a first row for a sweep number is stored as-is; later rows
for the same number overlay their non-NaN cells onto the stored record. -/
def insertSweep (k : Int) (r : Row) (st : ScanSt) : ScanSt :=
  match st.sweeps.lookup k with
  | some _ => { st with sweeps := updSweep k r st.sweeps }
  | none => { st with sweeps := st.sweeps ++ [(k, r)] }

/-- The outer scan of `MiesNwb.notebook` (lines 54-97).  The argument list is
the state of `nb_iter`: the indices the `for` loop has not yet consumed.
`nb_iter.next()` is modelled by peeling one element off that list, raising
`StopIteration` when it is empty.

A discriminant-classified test-pulse record (`tpDisc`) consumes one extra
index (line 84) and appends `nb[i]` overlaid with the non-NaN cells of
`nb[i+1]`.  A heuristically detected pair (`tpHeur`) consumes one index during
detection (line 77) and another in the merge branch (line 84) before the same
merge.  A sweep record truncates its sweep number (`int(sweep_num)`, raising
`ValueError` on NaN) and merges into `sweep_entries`. -/
def scanAux (t : NBTable) (est : Option Nat) (peak dur : Nat) :
    List Nat → ScanSt → Except PyErr ScanSt
  | [], st => .ok st
  | i :: rest, st =>
    match classifyRow t est peak dur i with
    | .tpDisc =>
      match rest with
      | [] => .error .stopIteration
      | _ :: rest' =>
        scanAux t est peak dur rest'
          { st with tps := st.tps ++ [overlayRow (t.row i) (t.row (i + 1))] }
    | .tpHeur =>
      match rest with
      | [] => .error .stopIteration
      | _ :: rest' =>
        match rest' with
        | [] => .error .stopIteration
        | _ :: rest'' =>
          scanAux t est peak dur rest''
            { st with tps := st.tps ++ [overlayRow (t.row i) (t.row (i + 1))] }
    | .sweep =>
      match t.row i 0 0 with
      | none => .error .valueError
      | some q => scanAux t est peak dur rest (insertSweep (truncQ q) (t.row i) st)
    | .skip => scanAux t est peak dur rest st

/-- The row-collection phase of `MiesNwb.notebook` run over the whole table
(the per-sweep post-merge propagation of lines 99-120 happens after this and
is not part of the claims modelled here). -/
def scanNotebook (t : NBTable) (est : Option Nat) (peak dur : Nat) :
    Except PyErr ScanSt :=
  scanAux t est peak dur (List.range t.nRows) ⟨[], []⟩

/-! Spec-side view of the sweep-record assembly.  The spec describes the merge
as operating on "that sweep's rows in scan order"; the following scan is
identical to `scanAux` except that, instead of merging, it records for every
sweep number the list of raw rows the implementation would merge into it. -/

/-- Spec-side scan state: for each sweep number, the raw rows (in scan order)
that the implementation merges into its record. -/
structure SpecSt where
  groups : List (Int × List Row)
  tps : List Row

/-- Spec-side counterpart of `updSweep`: append the new raw row to the
existing group of its sweep number. -/
def updGroup (k : Int) (r : Row) : List (Int × List Row) → List (Int × List Row)
  | [] => []
  | (k', rs) :: rest =>
    if k == k' then (k', rs ++ [r]) :: rest else (k', rs) :: updGroup k r rest

/-- Spec-side counterpart of `insertSweep`. -/
def specInsert (k : Int) (r : Row) (sp : SpecSt) : SpecSt :=
  match sp.groups.lookup k with
  | some _ => { sp with groups := updGroup k r sp.groups }
  | none => { sp with groups := sp.groups ++ [(k, [r])] }

/-- The scan of `scanAux` with grouping instead of merging; classification,
iterator consumption and error behaviour are identical. -/
def specScanAux (t : NBTable) (est : Option Nat) (peak dur : Nat) :
    List Nat → SpecSt → Except PyErr SpecSt
  | [], sp => .ok sp
  | i :: rest, sp =>
    match classifyRow t est peak dur i with
    | .tpDisc =>
      match rest with
      | [] => .error .stopIteration
      | _ :: rest' =>
        specScanAux t est peak dur rest'
          { sp with tps := sp.tps ++ [overlayRow (t.row i) (t.row (i + 1))] }
    | .tpHeur =>
      match rest with
      | [] => .error .stopIteration
      | _ :: rest' =>
        match rest' with
        | [] => .error .stopIteration
        | _ :: rest'' =>
          specScanAux t est peak dur rest''
            { sp with tps := sp.tps ++ [overlayRow (t.row i) (t.row (i + 1))] }
    | .sweep =>
      match t.row i 0 0 with
      | none => .error .valueError
      | some q => specScanAux t est peak dur rest (specInsert (truncQ q) (t.row i) sp)
    | .skip => specScanAux t est peak dur rest sp

/-- Spec-side scan over the whole table. -/
def specScanNotebook (t : NBTable) (est : Option Nat) (peak dur : Nat) :
    Except PyErr SpecSt :=
  specScanAux t est peak dur (List.range t.nRows) ⟨[], []⟩

/-- Merging a group of raw rows the way lines 93-97 do: the first row is
stored as-is, each later row overlays its non-NaN cells. -/
def mergeRows : List Row → Row
  | [] => fun _ _ => none
  | r :: rs => rs.foldl overlayRow r

/-- Collapse a spec-side grouping into the implementation's merged records. -/
def mergeGroups (gs : List (Int × List Row)) : List (Int × Row) :=
  gs.map fun p => (p.1, mergeRows p.2)

/-- The implementation state a spec-side state denotes. -/
def toImpl (sp : SpecSt) : ScanSt := ⟨mergeGroups sp.groups, sp.tps⟩

/-- Every group of a spec-side state is nonempty (true of all reachable
states; needed to relate `updSweep` and `updGroup`). -/
def GroupsNE (gs : List (Int × List Row)) : Prop := ∀ p ∈ gs, p.2 ≠ []

/-! Calendar/time model for `MiesNwb.igorpro_date` (lines 178-184). -/

/-- Proleptic-Gregorian day number of a civil date (year ≥ 1), counted from a
fixed origin (1 March of year 0).  Only differences of day numbers are ever
used, exactly as only differences of `datetime` values are. -/
def daysFromCivil (y m d : Nat) : Nat :=
  let y' := if m ≤ 2 then y - 1 else y
  let era := y' / 400
  let yoe := y' % 400
  let mp := (m + 9) % 12
  let doy := (153 * mp + 2) / 5 + d - 1
  let doe := yoe * 365 + yoe / 4 - yoe / 100 + doy
  era * 146097 + doe

/-- A naive `datetime(y, m, d)`: the absolute time-axis position of midnight
of that date, in seconds (no timezone attached, as in the source). -/
def datetimeSec (y m d : Nat) : ℚ := (daysFromCivil y m d : ℚ) * 86400

/-- `datetime.utcfromtimestamp(ts)`: the absolute position `ts` seconds after
the 1970-01-01 epoch, with no timezone adjustment. -/
def utcfromtimestamp (ts : ℚ) : ℚ := datetimeSec 1970 1 1 + ts

/-- `MiesNwb.igorpro_date` (lines 178-184): convert an IgorPro timestamp
(seconds since 1904-01-01) to a datetime by subtracting the constant
`datetime(1970,1,1) - datetime(1904,1,1)` offset from
`utcfromtimestamp(timestamp)`. -/
def igorpro_date (ts : ℚ) : ℚ :=
  utcfromtimestamp ts - (datetimeSec 1970 1 1 - datetimeSec 1904 1 1)

/-! Standalone test-pulse entries (`MiesNwb.test_pulse_entries`, lines
199-211) and the attribute life-cycle of the `MiesNwb` object. -/

/-- One compiled test-pulse entry dict: `igorpro_date(rec[1, 0])` as
timestamp, the four per-channel measurement fields (`rec[i, :8]`, modelled as
the channel-indexed function), and the four global stimulus fields
(`rec[i, 8]`). -/
structure TPEntry where
  timestamp : ℚ
  tpBaselineVm : Nat → Option ℚ
  tpBaselinePA : Nat → Option ℚ
  tpPeakResistance : Nat → Option ℚ
  tpSteadyStateResistance : Nat → Option ℚ
  stimBaselineFraction : Option ℚ
  stimAmplitudeVC : Option ℚ
  stimAmplitudeIC : Option ℚ
  stimPulseDuration : Option ℚ

/-- The `_notebook_keys` lookups `test_pulse_entries` performs, one field per
used name; `none` models a name absent from the key list (Python `KeyError`
on subscript). -/
structure TPKeys where
  tpBaselineVm : Option Nat
  tpBaselinePA : Option Nat
  tpPeakResistance : Option Nat
  tpSteadyStateResistance : Option Nat
  tpBaselineFraction : Option Nat
  tpAmplitudeVC : Option Nat
  tpAmplitudeIC : Option Nat
  tpPulseDuration : Option Nat

/-- Build one entry of `test_pulse_entries` from a merged test-pulse row
(lines 204-209).  The timestamp is computed first (`igorpro_date(rec[1, 0])`
raises `ValueError` on a NaN timestamp); each field-name subscript raises
`KeyError` when the name is missing. -/
def mkTPEntry (keys : TPKeys) (r : Row) : Except PyErr TPEntry :=
  match r 1 0 with
  | none => .error .valueError
  | some ts =>
    match keys.tpBaselineVm with
    | none => .error .keyError
    | some iVm =>
      match keys.tpBaselinePA with
      | none => .error .keyError
      | some iPA =>
        match keys.tpPeakResistance with
        | none => .error .keyError
        | some iPk =>
          match keys.tpSteadyStateResistance with
          | none => .error .keyError
          | some iSS =>
            match keys.tpBaselineFraction with
            | none => .error .keyError
            | some iBF =>
              match keys.tpAmplitudeVC with
              | none => .error .keyError
              | some iAV =>
                match keys.tpAmplitudeIC with
                | none => .error .keyError
                | some iAI =>
                  match keys.tpPulseDuration with
                  | none => .error .keyError
                  | some iPD =>
                    .ok
                      { timestamp := igorpro_date ts
                        tpBaselineVm := fun c => r iVm c
                        tpBaselinePA := fun c => r iPA c
                        tpPeakResistance := fun c => r iPk c
                        tpSteadyStateResistance := fun c => r iSS c
                        stimBaselineFraction := r iBF 8
                        stimAmplitudeVC := r iAV 8
                        stimAmplitudeIC := r iAI 8
                        stimPulseDuration := r iPD 8 }

/-- The `for rec in self._tp_notebook` loop of lines 204-210: entries are
built in order, with the first failing row's exception propagating. -/
def buildTPEntries (keys : TPKeys) : List Row → Except PyErr (List TPEntry)
  | [] => .ok []
  | r :: rs =>
    match mkTPEntry keys r with
    | .error e => .error e
    | .ok entry =>
      match buildTPEntries keys rs with
      | .error e => .error e
      | .ok l => .ok (entry :: l)

/-- The attribute state of one `MiesNwb` object that the notebook machinery
touches.  `nbCache` models `self._notebook` (set to `None` in `__init__`:
`none` = Python `None`, `some` = computed).  `tpNotebook`, `notebookKeys` and
`tpEntries` model `self._tp_notebook`, `self._notebook_keys` and
`self._tp_entries`, attributes that `__init__` does **not** create: the outer
`none` means the attribute is missing entirely (accessing it raises
`AttributeError`); for `tpEntries` the inner layer distinguishes Python
`None` (`some none`) from a computed list (`some (some l)`). -/
structure MiesNwbSt where
  t : NBTable
  est : Option Nat
  peak : Nat
  dur : Nat
  keys : TPKeys
  nbCache : Option (List (Int × Row))
  tpNotebook : Option (List Row)
  notebookKeys : Option TPKeys
  tpEntries : Option (Option (List TPEntry))

/-- The object right after `MiesNwb.__init__`: `_notebook = None`, and the
`_tp_notebook`, `_notebook_keys`, `_tp_entries` attributes do not exist. -/
def initMiesNwb (t : NBTable) (est : Option Nat) (peak dur : Nat)
    (keys : TPKeys) : MiesNwbSt :=
  ⟨t, est, peak, dur, keys, none, none, none, none⟩

/-- `MiesNwb.notebook` at the object level (lines 39 and 122-126): on a cache
miss, run the scan, publish `_notebook`, `_tp_notebook`, `_notebook_keys` and
`_tp_entries = None`, and return the compiled entries.  The per-sweep
post-merge propagation of lines 99-120 is outside the scope of the claims
modelled here, so the cache holds the merged records of the scan. -/
def MiesNwbSt.notebook (s : MiesNwbSt) : Except PyErr (List (Int × Row) × MiesNwbSt) :=
  match s.nbCache with
  | some nb => .ok (nb, s)
  | none =>
    match scanNotebook s.t s.est s.peak s.dur with
    | .error e => .error e
    | .ok st =>
      .ok (st.sweeps,
        { s with nbCache := some st.sweeps, tpNotebook := some st.tps,
                 notebookKeys := some s.keys, tpEntries := some none })

/-- `MiesNwb.test_pulse_entries` (lines 199-211).  The very first statement
reads `self._tp_entries`, so a missing attribute raises `AttributeError`
before anything else happens; on `None` the entries are compiled from
`self._tp_notebook` / `self._notebook_keys` (also `AttributeError` when those
are missing) and memoized. -/
def MiesNwbSt.test_pulse_entries (s : MiesNwbSt) :
    Except PyErr (List TPEntry × MiesNwbSt) :=
  match s.tpEntries with
  | none => .error .attributeError
  | some (some l) => .ok (l, s)
  | some none =>
    match s.tpNotebook, s.notebookKeys with
    | some rows, some keys =>
      match buildTPEntries keys rows with
      | .error e => .error e
      | .ok l => .ok (l, { s with tpEntries := some (some l) })
    | some _, none => .error .attributeError
    | none, _ => .error .attributeError

/-! Nearest standalone test pulse (`MiesRecording._find_nearest_test_pulse`,
lines 328-340). -/

/-- `abs((entry['timestamp'] - start).total_seconds())`. -/
def tpDist (start : ℚ) (e : TPEntry) : ℚ := |e.timestamp - start|

/-- The body of the `for entry in ... test_pulse_entries()` loop: keep the
entry, and its distance, whenever `min_dt is None or dt < min_dt`. -/
def nearestStep (start : ℚ) (acc : Option (ℚ × TPEntry)) (e : TPEntry) :
    Option (ℚ × TPEntry) :=
  match acc with
  | none => some (tpDist start e, e)
  | some (mind, cur) =>
    if tpDist start e < mind then some (tpDist start e, e) else some (mind, cur)

/-- `MiesRecording._find_nearest_test_pulse`: fold the loop over the entry
list and return the winning entry, `none` when the list is empty. -/
def find_nearest_test_pulse (start : ℚ) (entries : List TPEntry) : Option TPEntry :=
  (entries.foldl (nearestStep start) none).map Prod.snd

/-- Spec-side reading of the same search: the first-encountered entry
attaining the minimal time distance (a later entry displaces an earlier one
only when strictly closer). -/
def specNearest (start : ℚ) : List TPEntry → Option TPEntry
  | [] => none
  | e :: es =>
    match specNearest start es with
    | none => some e
    | some e' => if tpDist start e' < tpDist start e then some e' else some e

/-! `MiesTestPulse` (lines 417-489): the one-channel view of a standalone
test-pulse entry and its clamp-mode-gated quantities. -/

/-- The two clamp modes. -/
inductive ClampMode where
  | vc
  | ic
  deriving DecidableEq, Repr

/-- `self._nb_entry` of `MiesTestPulse.__init__`: the four per-channel fields
of one entry restricted to the recording's headstage channel. -/
structure NBEntryChan where
  tpBaselineVm : Option ℚ
  tpBaselinePA : Option ℚ
  tpPeakResistance : Option ℚ
  tpSteadyStateResistance : Option ℚ

/-- Restriction of a test-pulse entry to one channel (lines 420-425). -/
def nbEntryAt (e : TPEntry) (chan : Nat) : NBEntryChan :=
  ⟨e.tpBaselineVm chan, e.tpBaselinePA chan,
   e.tpPeakResistance chan, e.tpSteadyStateResistance chan⟩

/-- Line 427: `'vc' if np.isnan(entry['TP Baseline Vm']) else 'ic'`. -/
def NBEntryChan.clamp_mode (x : NBEntryChan) : ClampMode :=
  if x.tpBaselineVm.isNone then .vc else .ic

/-- Lines 442-451.  The outer `Option` is the Python result: `none` is the
`None` returned in current clamp, `some v` the number `value * 1e6` (whose
inner `Option` is `none` when the raw cell was NaN, since `nan * 1e6` is
still NaN). -/
def NBEntryChan.access_resistance (x : NBEntryChan) : Option (Option ℚ) :=
  if x.clamp_mode = .vc then some (x.tpPeakResistance.map fun v => v * 1000000)
  else none

/-- Lines 453-457: returned in both clamp modes. -/
def NBEntryChan.input_resistance (x : NBEntryChan) : Option (Option ℚ) :=
  some (x.tpSteadyStateResistance.map fun v => v * 1000000)

/-- Lines 471-479: `entry * 1e-3` in current clamp, `None` otherwise. -/
def NBEntryChan.baseline_potential (x : NBEntryChan) : Option (Option ℚ) :=
  if x.clamp_mode = .ic then some (x.tpBaselineVm.map fun v => v * (1 / 1000))
  else none

/-- Lines 481-489: `entry * 1e-12` in voltage clamp, `None` otherwise. -/
def NBEntryChan.baseline_current (x : NBEntryChan) : Option (Option ℚ) :=
  if x.clamp_mode = .vc then
    some (x.tpBaselinePA.map fun v => v * (1 / 1000000000000))
  else none

/-! Metadata derived in `MiesRecording.__init__` (lines 257-277).  The
arguments are the recording's notebook dict values (already `None`-for-NaN),
in source order: `'V-Clamp Holding Level'`, `'I-Clamp Holding Level'`,
`'Clamp Mode'`, `'Bridge Bal Enable'`, `'Bridge Bal Value'`, `'LPF Cutoff'`,
`'Pipette Offset'`. -/

/-- The derived metadata fields.  `bridge_balance` is `none` in voltage clamp
(the source never writes the key there). -/
structure RecordingMeta where
  holding_potential : Option ℚ
  holding_current : Option ℚ
  clamp_mode : ClampMode
  bridge_balance : Option ℚ
  lpf_cutoff : Option ℚ
  pipette_offset : Option ℚ

/-- Lines 257-277.  Note that `nb['Clamp Mode'] == 0` is `False` in Python
when the value is `None`, so an unset clamp mode classifies as `'ic'`;
`lpf_cutoff` is copied verbatim while `pipette_offset` is `None`-checked and
scaled by `1e-3`. -/
def buildRecordingMeta (vHold iHold cMode bridgeEnable bridgeValue lpf pipette :
    Option ℚ) : RecordingMeta :=
  { holding_potential := vHold.map fun v => v * (1 / 1000)
    holding_current := iHold.map fun v => v * (1 / 1000000000000)
    clamp_mode := if cMode = some 0 then .vc else .ic
    bridge_balance :=
      if cMode = some 0 then none
      else some (if bridgeEnable = some 0 ∨ bridgeValue = none then 0
                 else bridgeValue.getD 0 * 1000000)
    lpf_cutoff := lpf
    pipette_offset := pipette.map fun v => v * (1 / 1000) }

/-! The inserted-test-pulse sample window (`MiesRecording.inserted_test_pulse`,
lines 346-371). -/

/-- Lines 356-360: `pdur = nb['TP Pulse Duration'] / 1000`,
`bdur = pdur / (1 - 2 * nb['TP Baseline Fraction'])`, `tdur = pdur + 2*bdur`,
`start = 0`, `stop = start + int(tdur / dt)`.  Inputs are the raw notebook
pulse duration (milliseconds), the baseline fraction, and the trace sample
interval `dt` (seconds), all assumed set. -/
def inserted_tp_window (pulseDur baselineFrac dt : ℚ) : Int × Int :=
  let pdur := pulseDur / 1000
  let bdur := pdur / (1 - 2 * baselineFrac)
  let tdur := pdur + 2 * bdur
  let start : Int := 0
  (start, start + truncQ (tdur / dt))

/-- The window as the claim words it, with `round`: `[0, round(tdur / dt))`. -/
def insertedWindowRoundSpec (pulseDur baselineFrac dt : ℚ) : Int × Int :=
  let pdur := pulseDur / 1000
  let bdur := pdur / (1 - 2 * baselineFrac)
  let tdur := pdur + 2 * bdur
  (0, round (tdur / dt))

/-- The window with the duration-to-samples conversion truncated, as the
source computes it. -/
def insertedWindowTruncSpec (pulseDur baselineFrac dt : ℚ) : Int × Int :=
  let pdur := pulseDur / 1000
  let bdur := pdur / (1 - 2 * baselineFrac)
  let tdur := pdur + 2 * bdur
  (0, truncQ (tdur / dt))

/-! Baseline regions (`MiesRecording.baseline_regions`, lines 373-390). -/

/-- Lines 378-390, with the raw notebook durations (milliseconds) and the
sample interval `dt` (seconds) as inputs, all assumed set.  A region's stop
index is `some` of an index, or `none` for the open-ended trailing region.
The onset stop index is `int(start + dur/dt)` exactly as written in the
source (`start` is in seconds while `dur/dt` is in samples). -/
def baseline_regions (onsetAuto onsetUser term dt : ℚ) : List (Int × Option Int) :=
  let start := onsetAuto / 1000
  let dur := onsetUser / 1000
  let regions : List (Int × Option Int) :=
    if dur > 0 then [(truncQ (start / dt), some (truncQ (start + dur / dt)))] else []
  let dur2 := term / 1000
  if dur2 > 0 then regions ++ [(-truncQ (dur2 / dt), none)] else regions

/-! Concrete tables and objects used by counterexamples and witnesses. -/

/-- Two rows of the same sweep (number 1), both marked as sweep records by a
discriminant at field 1; field 2, channel 0 holds 10 in the first row and 20
in the second. -/
def rowC1 : Nat → Row
  | 0 => fun f c =>
    if f = 0 ∧ c = 0 then some 1
    else if f = 1 ∧ c = 0 then some 0
    else if f = 2 ∧ c = 0 then some 10 else none
  | 1 => fun f c =>
    if f = 0 ∧ c = 0 then some 1
    else if f = 1 ∧ c = 0 then some 0
    else if f = 2 ∧ c = 0 then some 20 else none
  | _ => fun _ _ => none

def tC1 : NBTable := ⟨2, 9, rowC1⟩

/-- A table without a discriminant: rows 0 and 1 are a legacy test-pulse pair
(field 2 = peak resistance, field 3 = pulse duration), rows 2, 3 and 4 are
sweep records with sweep numbers 1, 2 and 3. -/
def rowC2 : Nat → Row
  | 0 => fun f c => if f = 2 ∧ c = 0 then some 5 else none
  | 1 => fun f c => if f = 3 ∧ c = 0 then some 7 else none
  | 2 => fun f c => if f = 0 ∧ c = 0 then some 1 else none
  | 3 => fun f c => if f = 0 ∧ c = 0 then some 2 else none
  | 4 => fun f c => if f = 0 ∧ c = 0 then some 3 else none
  | _ => fun _ _ => none

def tC2 : NBTable := ⟨5, 9, rowC2⟩

/-- The first two rows of `rowC2` alone: a table that is exactly one legacy
test-pulse pair. -/
def tC2b : NBTable := ⟨2, 9, rowC2⟩

/-- A one-row table whose single row carries a finite nonzero discriminant at
field 1 (a test-pulse record at the table boundary). -/
def rowC10 : Nat → Row
  | 0 => fun f c => if f = 1 ∧ c = 0 then some 1 else none
  | _ => fun _ _ => none

def tC10 : NBTable := ⟨1, 9, rowC10⟩

/-- A two-row table whose first row is a discriminant-marked test-pulse record
(field 2 nonzero) with a finite timestamp at field 1; row 1 is all NaN and is
consumed as the second half of the block. -/
def rowC9 : Nat → Row
  | 0 => fun f c =>
    if f = 1 ∧ c = 0 then some 100
    else if f = 2 ∧ c = 0 then some 1 else none
  | _ => fun _ _ => none

def tC9 : NBTable := ⟨2, 9, rowC9⟩

/-- A key table with all eight test-pulse field names present. -/
def keysC9 : TPKeys :=
  ⟨some 4, some 4, some 4, some 4, some 4, some 4, some 4, some 4⟩

def initC9 : MiesNwbSt := initMiesNwb tC9 (some 2) 6 7 keysC9

/-- The notebook value and the object state after the first `notebook()`
call on `initC9` (the call succeeds, see the witness). -/
def nbC9 : List (Int × Row) :=
  match initC9.notebook with
  | .ok p => p.1
  | .error _ => []

def sC9 : MiesNwbSt :=
  match initC9.notebook with
  | .ok p => p.2
  | .error _ => initC9

/-- The entry list and state after the first `test_pulse_entries()` call on
`sC9`. -/
def lC9 : List TPEntry :=
  match sC9.test_pulse_entries with
  | .ok p => p.1
  | .error _ => []

def sC9b : MiesNwbSt :=
  match sC9.test_pulse_entries with
  | .ok p => p.2
  | .error _ => sC9

/-- Two concrete test-pulse entries at time distances 10 and 4 from start 0. -/
def tpE1 : TPEntry :=
  ⟨10, fun _ => none, fun _ => none, fun _ => none, fun _ => none,
   none, none, none, none⟩

def tpE2 : TPEntry :=
  ⟨4, fun _ => none, fun _ => none, fun _ => none, fun _ => none,
   none, none, none, none⟩

/-- A current-clamp channel view (finite baseline Vm). -/
def xIC : NBEntryChan := ⟨some 5, some 6, some 7, some 8⟩

/-- A voltage-clamp channel view (NaN baseline Vm). -/
def xVC : NBEntryChan := ⟨none, some 6, some 7, some 8⟩

end Mies

namespace Mies

theorem lookup_mergeGroups (gs : List (Int × List Row)) (k : Int) :
    (mergeGroups gs).lookup k = (gs.lookup k).map mergeRows := by
  induction gs with
  | nil => rfl
  | cons p rest ih =>
    obtain ⟨k', rs⟩ := p
    simp only [mergeGroups, List.map_cons, List.lookup]
    cases h : k == k' <;> simp_all [mergeGroups]

theorem mergeRows_append (rs : List Row) (r : Row) (h : rs ≠ []) :
    mergeRows (rs ++ [r]) = overlayRow (mergeRows rs) r := by
  cases rs with
  | nil => exact absurd rfl h
  | cons r0 rest => simp [mergeRows, List.foldl_append]

theorem updSweep_mergeGroups (gs : List (Int × List Row)) (k : Int) (r : Row)
    (h : GroupsNE gs) :
    updSweep k r (mergeGroups gs) = mergeGroups (updGroup k r gs) := by
  induction gs with
  | nil => rfl
  | cons p rest ih =>
    obtain ⟨k', rs⟩ := p
    have hne : rs ≠ [] := h ⟨k', rs⟩ (List.mem_cons_self _ _)
    have hrest : GroupsNE rest := fun q hq => h q (List.mem_cons_of_mem _ hq)
    simp only [mergeGroups, List.map_cons, updSweep, updGroup]
    cases hk : k == k' with
    | true => simp [mergeRows_append rs r hne]
    | false => simpa [mergeGroups] using ih hrest

theorem insertSweep_toImpl (sp : SpecSt) (k : Int) (r : Row)
    (h : GroupsNE sp.groups) :
    insertSweep k r (toImpl sp) = toImpl (specInsert k r sp) := by
  obtain ⟨gs, tps⟩ := sp
  simp only [insertSweep, specInsert, toImpl, lookup_mergeGroups]
  cases hk : gs.lookup k with
  | none => simp [mergeGroups, mergeRows]
  | some rs => simpa using congrArg (fun l => ScanSt.mk l tps) (updSweep_mergeGroups gs k r h)

theorem updGroup_ne (gs : List (Int × List Row)) (k : Int) (r : Row)
    (h : GroupsNE gs) : GroupsNE (updGroup k r gs) := by
  induction gs with
  | nil => exact h
  | cons p rest ih =>
    obtain ⟨k', rs⟩ := p
    have hne : rs ≠ [] := h ⟨k', rs⟩ (List.mem_cons_self _ _)
    have hrest : GroupsNE rest := fun q hq => h q (List.mem_cons_of_mem _ hq)
    have ihr := ih hrest
    intro q hq
    simp only [updGroup] at hq
    cases hk : k == k' with
    | true =>
      rw [hk, if_pos rfl] at hq
      rcases List.mem_cons.mp hq with h1 | h2
      · rw [h1]; simp
      · exact hrest q h2
    | false =>
      rw [hk] at hq
      simp only [Bool.false_eq_true, if_false] at hq
      rcases List.mem_cons.mp hq with h1 | h2
      · rw [h1]; exact hne
      · exact ihr q h2

theorem specInsert_ne (sp : SpecSt) (k : Int) (r : Row)
    (h : GroupsNE sp.groups) : GroupsNE (specInsert k r sp).groups := by
  obtain ⟨gs, tps⟩ := sp
  simp only [specInsert]
  cases hk : gs.lookup k with
  | none =>
    intro q hq
    simp only at hq
    rcases List.mem_append.mp hq with h1 | h2
    · exact h q h1
    · rcases List.mem_singleton.mp h2 with rfl; simp
  | some rs => exact updGroup_ne gs k r h

/-- Simulation: running the implementation scan from the state a spec-side
state denotes yields exactly the collapse of running the spec-side scan. -/
theorem scan_sim (t : NBTable) (est : Option Nat) (peak dur : Nat) :
    ∀ (n : Nat) (idxs : List Nat), idxs.length ≤ n → ∀ (sp : SpecSt),
      GroupsNE sp.groups →
      scanAux t est peak dur idxs (toImpl sp)
        = (specScanAux t est peak dur idxs sp).map toImpl := by
  intro n
  induction n with
  | zero =>
    intro idxs h sp hg
    have : idxs = [] := List.length_eq_zero.mp (Nat.le_zero.mp h)
    subst this
    rfl
  | succ n ih =>
    intro idxs h sp hg
    cases idxs with
    | nil => rfl
    | cons i rest =>
      have hr : rest.length ≤ n := by simpa using h
      cases rest with
      | nil =>
        rw [scanAux.eq_2, specScanAux.eq_2]
        cases hc : classifyRow t est peak dur i with
        | tpDisc => rfl
        | tpHeur => rfl
        | sweep =>
          cases hrow : t.row i 0 0 with
          | none => rfl
          | some q =>
            show scanAux t est peak dur [] (insertSweep (truncQ q) (t.row i) (toImpl sp))
              = Except.map toImpl (specScanAux t est peak dur [] (specInsert (truncQ q) (t.row i) sp))
            rw [insertSweep_toImpl sp (truncQ q) (t.row i) hg]
            rfl
        | skip => rfl
      | cons j rest' =>
        cases rest' with
        | nil =>
          rw [scanAux.eq_3, specScanAux.eq_3]
          cases hc : classifyRow t est peak dur i with
          | tpDisc => rfl
          | tpHeur => rfl
          | sweep =>
            cases hrow : t.row i 0 0 with
            | none => rfl
            | some q =>
              show scanAux t est peak dur [j] (insertSweep (truncQ q) (t.row i) (toImpl sp))
                = Except.map toImpl (specScanAux t est peak dur [j] (specInsert (truncQ q) (t.row i) sp))
              rw [insertSweep_toImpl sp (truncQ q) (t.row i) hg]
              exact ih [j] (by simpa using hr) (specInsert (truncQ q) (t.row i) sp)
                (specInsert_ne sp _ _ hg)
          | skip => exact ih [j] (by simpa using hr) sp hg
        | cons j' rest'' =>
          have hlen : rest''.length + 2 ≤ n := by simpa using hr
          have h2 : rest''.length ≤ n := by omega
          have h1 : (j' :: rest'').length ≤ n := by
            simp only [List.length_cons]
            omega
          rw [scanAux.eq_4, specScanAux.eq_4]
          cases hc : classifyRow t est peak dur i with
          | tpDisc =>
            exact ih (j' :: rest'') h1
              { sp with tps := sp.tps ++ [overlayRow (t.row i) (t.row (i + 1))] } hg
          | tpHeur =>
            exact ih rest'' h2
              { sp with tps := sp.tps ++ [overlayRow (t.row i) (t.row (i + 1))] } hg
          | sweep =>
            cases hrow : t.row i 0 0 with
            | none => rfl
            | some q =>
              show scanAux t est peak dur (j :: j' :: rest'')
                  (insertSweep (truncQ q) (t.row i) (toImpl sp))
                = Except.map toImpl (specScanAux t est peak dur (j :: j' :: rest'')
                    (specInsert (truncQ q) (t.row i) sp))
              rw [insertSweep_toImpl sp (truncQ q) (t.row i) hg]
              exact ih (j :: j' :: rest'') hr (specInsert (truncQ q) (t.row i) sp)
                (specInsert_ne sp _ _ hg)
          | skip => exact ih (j :: j' :: rest'') hr sp hg

/-- Folding one overlay step into the head of a cell list does not change the
last non-NaN value. -/
theorem lastSome_overlay (a b : Option ℚ) (l : List (Option ℚ)) :
    lastSome (overlayCell a b :: l) = lastSome (a :: b :: l) := by
  simp only [lastSome]
  cases h : lastSome l with
  | some v => rfl
  | none => cases b <;> simp [overlayCell]

/-- The cell-level content of the merge: the merged value at any field/channel
position is the last non-NaN value among the group's rows, in order. -/
theorem mergeRows_cell (rs : List Row) (f c : Nat) :
    mergeRows rs f c = lastSome (rs.map fun r => r f c) := by
  cases rs with
  | nil => rfl
  | cons r rest =>
    induction rest generalizing r with
    | nil => simp [mergeRows, lastSome]
    | cons y ys ih =>
      have step : mergeRows (r :: y :: ys) = mergeRows (overlayRow r y :: ys) := by
        simp [mergeRows]
      rw [step, ih (overlayRow r y)]
      simp only [List.map_cons]
      exact lastSome_overlay (r f c) (y f c) (ys.map fun r => r f c)

theorem specNearest_swap (start : ℚ) (e0 y : TPEntry) (ys : List TPEntry) :
    specNearest start (e0 :: y :: ys)
      = specNearest start ((if tpDist start y < tpDist start e0 then y else e0) :: ys) := by
  cases hR : specNearest start ys with
  | none =>
    by_cases h1 : tpDist start y < tpDist start e0 <;> simp [specNearest, hR, h1]
  | some e' =>
    by_cases h1 : tpDist start y < tpDist start e0
    · by_cases h2 : tpDist start e' < tpDist start y
      · have h3 : tpDist start e' < tpDist start e0 := lt_trans h2 h1
        simp [specNearest, hR, h1, h2, h3]
      · simp [specNearest, hR, h1, h2]
    · by_cases h2 : tpDist start e' < tpDist start y
      · simp [specNearest, hR, h1, h2]
      · have h3 : ¬tpDist start e' < tpDist start e0 :=
          not_lt.mpr (le_trans (not_lt.mp h1) (not_lt.mp h2))
        simp [specNearest, hR, h1, h2, h3]

theorem find_nearest_foldl (start : ℚ) :
    ∀ (xs : List TPEntry) (e0 : TPEntry),
      xs.foldl (nearestStep start) (some (tpDist start e0, e0))
        = (specNearest start (e0 :: xs)).map fun e => (tpDist start e, e) := by
  intro xs
  induction xs with
  | nil => intro e0; simp [specNearest]
  | cons y ys ih =>
    intro e0
    rw [List.foldl_cons]
    have hstep : nearestStep start (some (tpDist start e0, e0)) y
        = some (tpDist start (if tpDist start y < tpDist start e0 then y else e0),
                if tpDist start y < tpDist start e0 then y else e0) := by
      simp only [nearestStep]
      split_ifs <;> rfl
    rw [hstep, ih, ← specNearest_swap]

theorem find_nearest_eq_specNearest (start : ℚ) (entries : List TPEntry) :
    find_nearest_test_pulse start entries = specNearest start entries := by
  cases entries with
  | nil => rfl
  | cons e es =>
    unfold find_nearest_test_pulse
    rw [List.foldl_cons]
    have h0 : nearestStep start none e = some (tpDist start e, e) := rfl
    rw [h0, find_nearest_foldl]
    cases h : specNearest start (e :: es) <;> simp [h]

theorem specNearest_eq_none (start : ℚ) (l : List TPEntry) :
    specNearest start l = none ↔ l = [] := by
  cases l with
  | nil => simp [specNearest]
  | cons x xs =>
    cases hR : specNearest start xs with
    | none => simp [specNearest, hR]
    | some e' =>
      simp only [specNearest, hR]
      split_ifs <;> simp

theorem specNearest_mem (start : ℚ) :
    ∀ (l : List TPEntry) (e : TPEntry), specNearest start l = some e → e ∈ l := by
  intro l
  induction l with
  | nil => intro e h; cases h
  | cons x xs ih =>
    intro e h
    cases hR : specNearest start xs with
    | none =>
      simp only [specNearest, hR] at h
      obtain rfl := Option.some.inj h
      exact List.mem_cons_self _ _
    | some b =>
      simp only [specNearest, hR] at h
      by_cases hlt : tpDist start b < tpDist start x
      · rw [if_pos hlt] at h
        obtain rfl := Option.some.inj h
        exact List.mem_cons_of_mem _ (ih _ hR)
      · rw [if_neg hlt] at h
        obtain rfl := Option.some.inj h
        exact List.mem_cons_self _ _

theorem specNearest_min (start : ℚ) :
    ∀ (l : List TPEntry) (e : TPEntry), specNearest start l = some e →
      ∀ e' ∈ l, tpDist start e ≤ tpDist start e' := by
  intro l
  induction l with
  | nil => intro e h; cases h
  | cons x xs ih =>
    intro e h e'' hmem
    cases hR : specNearest start xs with
    | none =>
      have hxs : xs = [] := (specNearest_eq_none start xs).mp hR
      subst hxs
      simp only [specNearest, hR] at h
      obtain rfl := Option.some.inj h
      rcases List.mem_singleton.mp hmem with rfl
      exact le_refl _
    | some b =>
      simp only [specNearest, hR] at h
      by_cases hlt : tpDist start b < tpDist start x
      · rw [if_pos hlt] at h
        obtain rfl := Option.some.inj h
        rcases List.mem_cons.mp hmem with rfl | hm
        · exact le_of_lt hlt
        · exact ih _ hR e'' hm
      · rw [if_neg hlt] at h
        obtain rfl := Option.some.inj h
        rcases List.mem_cons.mp hmem with rfl | hm
        · exact le_refl _
        · exact le_trans (not_lt.mp hlt) (ih _ hR e'' hm)

/-- C6: for a recording without an inserted test pulse, the nearest-test-pulse
search returns the first-encountered block minimizing the absolute time
distance to the recording's start time; it returns `none` (not a failure)
when the block set is empty, and with exactly one block present it returns
that block regardless of time distance. -/
theorem c6_nearest_test_pulse (start : ℚ) (entries : List TPEntry) :
    find_nearest_test_pulse start entries = specNearest start entries
    ∧ find_nearest_test_pulse start [] = none
    ∧ (∀ e : TPEntry, find_nearest_test_pulse start [e] = some e)
    ∧ (∀ e : TPEntry, find_nearest_test_pulse start entries = some e →
        e ∈ entries ∧ ∀ e' ∈ entries, tpDist start e ≤ tpDist start e')
    ∧ (find_nearest_test_pulse start entries = none ↔ entries = []) := by
  have heq := find_nearest_eq_specNearest start
  refine ⟨heq entries, rfl, fun e => ?_, fun e h => ?_, ?_⟩
  · rw [heq [e]]; rfl
  · rw [heq entries] at h
    exact ⟨specNearest_mem start entries e h, specNearest_min start entries e h⟩
  · rw [heq entries]
    exact specNearest_eq_none start entries

/-- Witness for `c6_nearest_test_pulse` at a concrete entry list. -/
theorem c6_nearest_test_pulse_witness :
    find_nearest_test_pulse 0 [tpE1, tpE2] = some tpE2
    ∧ tpE2 ∈ [tpE1, tpE2]
    ∧ tpDist 0 tpE2 ≤ tpDist 0 tpE1 := by
  have h : find_nearest_test_pulse 0 [tpE1, tpE2] = some tpE2 := by
    norm_num [find_nearest_test_pulse, nearestStep, tpDist, tpE1, tpE2]
  have h2 := (c6_nearest_test_pulse 0 [tpE1, tpE2]).2.2.2.1 tpE2 h
  exact ⟨h, h2.1, h2.2 tpE1 (by simp)⟩

/-- C7: for a standalone-block test pulse, `access_resistance` and
`baseline_current` yield a number exactly in voltage clamp and are absent
(`none`) in current clamp, `baseline_potential` yields a number exactly in
current clamp and is absent in voltage clamp, and `input_resistance` is
defined in both modes; no combination raises (all accessors are total). -/
theorem c7_mode_gated_quantities (x : NBEntryChan) :
    (x.access_resistance.isSome ↔ x.clamp_mode = .vc)
    ∧ (x.baseline_current.isSome ↔ x.clamp_mode = .vc)
    ∧ (x.baseline_potential.isSome ↔ x.clamp_mode = .ic)
    ∧ x.input_resistance.isSome
    ∧ (x.clamp_mode = .ic → x.access_resistance = none ∧ x.baseline_current = none)
    ∧ (x.clamp_mode = .vc → x.baseline_potential = none) := by
  obtain ⟨vm, pa, pk, ss⟩ := x
  cases vm <;>
    simp [NBEntryChan.clamp_mode, NBEntryChan.access_resistance,
      NBEntryChan.baseline_current, NBEntryChan.baseline_potential,
      NBEntryChan.input_resistance]

/-- Witness for `c7_mode_gated_quantities` at concrete channel views. -/
theorem c7_mode_gated_quantities_witness :
    xIC.clamp_mode = .ic ∧ xIC.access_resistance = none ∧ xIC.baseline_current = none
    ∧ xVC.clamp_mode = .vc ∧ xVC.baseline_potential = none := by
  refine ⟨rfl, ?_, ?_, rfl, ?_⟩
  · exact ((c7_mode_gated_quantities xIC).2.2.2.2.1 rfl).1
  · exact ((c7_mode_gated_quantities xIC).2.2.2.2.1 rfl).2
  · exact (c7_mode_gated_quantities xVC).2.2.2.2.2 rfl

/-- C8 counterexample: the derived `lpf_cutoff` is the raw notebook value
copied verbatim, not the raw value scaled by `1e-3` as the claim states
(raw 2000 stays 2000, while the claim demands 2). -/
theorem c8_counterexample :
    (buildRecordingMeta none none none none none (some 2000) none).lpf_cutoff = some 2000
    ∧ (buildRecordingMeta none none none none none (some 2000) none).lpf_cutoff
        ≠ (some (2000 : ℚ)).map (fun v => v * (1 / 1000)) := by
  refine ⟨rfl, ?_⟩
  norm_num [buildRecordingMeta]

/-- C8 (amended): `pipette_offset` is the raw field scaled by `1e-3` and
`lpf_cutoff` is the raw field copied unscaled; an unset (NaN) raw value
yields an absent derived value for both, with no failure. -/
theorem c8_lpf_pipette (vHold iHold cMode bridgeEnable bridgeValue lpf pipette :
    Option ℚ) :
    (buildRecordingMeta vHold iHold cMode bridgeEnable bridgeValue lpf pipette).lpf_cutoff
        = lpf
    ∧ (buildRecordingMeta vHold iHold cMode bridgeEnable bridgeValue lpf pipette).pipette_offset
        = pipette.map (fun v => v * (1 / 1000))
    ∧ (lpf = none →
        (buildRecordingMeta vHold iHold cMode bridgeEnable bridgeValue lpf
          pipette).lpf_cutoff = none)
    ∧ (pipette = none →
        (buildRecordingMeta vHold iHold cMode bridgeEnable bridgeValue lpf
          pipette).pipette_offset = none) := by
  refine ⟨rfl, rfl, fun h => ?_, fun h => ?_⟩ <;> simp [buildRecordingMeta, h]

/-- Witness for `c8_lpf_pipette` with both raw fields unset. -/
theorem c8_lpf_pipette_witness :
    (buildRecordingMeta none none none none none none none).lpf_cutoff = none
    ∧ (buildRecordingMeta none none none none none none none).pipette_offset = none :=
  ⟨(c8_lpf_pipette none none none none none none none).2.2.1 rfl,
   (c8_lpf_pipette none none none none none none none).2.2.2 rfl⟩

/-- C5: the historical-epoch conversion maps every timestamp `t` to the
datetime `1904-01-01T00:00:00` plus `t` seconds, via nothing but the constant
offset between the 1904 and 1970 epochs (2082844800 seconds, i.e. 24107
days); in particular timestamp 0 maps to 1904-01-01T00:00:00 exactly. -/
theorem c5_igorpro_date_epoch :
    (∀ ts : ℚ, igorpro_date ts = datetimeSec 1904 1 1 + ts)
    ∧ igorpro_date 0 = datetimeSec 1904 1 1
    ∧ datetimeSec 1970 1 1 - datetimeSec 1904 1 1 = 2082844800 := by
  have h : ∀ ts : ℚ, igorpro_date ts = datetimeSec 1904 1 1 + ts := by
    intro ts
    unfold igorpro_date utcfromtimestamp
    ring
  refine ⟨h, by simpa using h 0, ?_⟩
  norm_num [datetimeSec, daysFromCivil]

/-- C4 counterexample: the sample-count conversion of the inserted-pulse
window truncates (`int()`), it does not round; at a 9.998 ms pulse the code
stops at index 499 where the claim's `round` would give 500. -/
theorem c4_counterexample :
    (inserted_tp_window (9998 / 1000) (1 / 4) (1 / 10000)).2 = 499
    ∧ (insertedWindowRoundSpec (9998 / 1000) (1 / 4) (1 / 10000)).2 = 500
    ∧ (499 : Int) ≠ 500 := by
  refine ⟨?_, ?_, by norm_num⟩
  · norm_num [inserted_tp_window, truncQ]
  · norm_num [insertedWindowRoundSpec, round_eq]

/-- C4 (amended): the inserted test pulse is bound to the window
`[0, trunc(total_duration / sample_interval))` with
`baseline_duration = pulse_duration / (1 - 2 * baseline_fraction)` and
`total_duration = pulse_duration + 2 * baseline_duration`; in particular a
10 ms pulse with baseline fraction 0.25 at a 0.1 ms sample interval yields
the window `[0, 500)`. -/
theorem c4_window_truncates (pulseDur baselineFrac dt : ℚ) :
    inserted_tp_window pulseDur baselineFrac dt
      = insertedWindowTruncSpec pulseDur baselineFrac dt
    ∧ inserted_tp_window 10 (1 / 4) (1 / 10000) = (0, 500) := by
  constructor
  · simp [inserted_tp_window, insertedWindowTruncSpec]
  · norm_num [inserted_tp_window, truncQ]

/-- C3: in the onset baseline region the stop index the source computes is
`int(start + dur/dt)` — seconds added to a sample count — rather than the
claim's `(onset_auto + onset_user)/dt`; with onset_auto = 100 ms,
onset_user = 200 ms and dt = 0.1 ms, the code yields stop index 2000 while
the claim requires 3000 (the start index, 1000, agrees). -/
theorem c3_onset_stop_misparenthesized :
    baseline_regions 100 200 0 (1 / 10000) = [(1000, some 2000)]
    ∧ truncQ (((100 : ℚ) / 1000 + (200 : ℚ) / 1000) / (1 / 10000)) = 3000
    ∧ (2000 : Int) ≠ 3000 := by
  refine ⟨?_, by norm_num [truncQ], by norm_num⟩
  norm_num [baseline_regions, truncQ]

/-- C1 counterexample: two rows of sweep 1 both carry a finite value at
field 2, channel 0 (10, then 20).  The scan's merged record holds 20 — the
**last** non-NaN value — while the claim's "never overwrite an existing
non-NaN value" reading requires the first one, 10. -/
theorem c1_counterexample :
    ((scanNotebook tC1 (some 1) 3 4).map
        fun st => (st.sweeps.lookup 1).map fun m => m 2 0)
      = .ok (some (some 20))
    ∧ firstSome [rowC1 0 2 0, rowC1 1 2 0] = some 10
    ∧ (some (20 : ℚ) : Option ℚ) ≠ some 10 := by
  refine ⟨rfl, rfl, ?_⟩
  norm_num

/-- C1 (amended): `notebook()` groups rows by truncated integer sweep number
and overlays non-NaN fields of later rows **over** the running record, so for
every field and channel the merged value equals the **last** non-NaN value
among that sweep's rows in scan order (a non-NaN value is never overwritten
by a NaN, but is overwritten by a later non-NaN value). -/
theorem c1_merge_takes_last_non_nan (t : NBTable) (est : Option Nat)
    (peak dur : Nat) (k : Int) (f c : Nat) :
    (scanNotebook t est peak dur).map
        (fun st => (st.sweeps.lookup k).map fun m => m f c)
      = (specScanNotebook t est peak dur).map
          (fun sp => (sp.groups.lookup k).map fun rs => lastSome (rs.map fun r => r f c)) := by
  have hg : GroupsNE (⟨[], []⟩ : SpecSt).groups := by
    intro p hp
    exact absurd hp (List.not_mem_nil p)
  have hsim := scan_sim t est peak dur (List.range t.nRows).length (List.range t.nRows)
    le_rfl ⟨[], []⟩ hg
  unfold scanNotebook specScanNotebook
  have h0 : (⟨[], []⟩ : ScanSt) = toImpl ⟨[], []⟩ := rfl
  rw [h0, hsim]
  cases hspec : specScanAux t est peak dur (List.range t.nRows) ⟨[], []⟩ with
  | error e => rfl
  | ok sp =>
    simp only [Except.map]
    congr 1
    show ((mergeGroups sp.groups).lookup k).map (fun m => m f c) = _
    rw [lookup_mergeGroups]
    cases hlk : sp.groups.lookup k <;> simp [mergeRows_cell]

/-- C2: on a table lacking the discriminant field, a legacy test-pulse pair
at rows 0-1 yields exactly one merged block (holding row 0's peak value and
row 1's duration value), but the outer scan then consumes **two** extra
indices, so the sweep record in row 2 is silently dropped (only the sweep of
row 3 survives; row 4 is the unclassifiable last row); and when the pair ends
the table, the extra `next()` raises `StopIteration` instead of producing the
block.  The claim's "exactly one extra row (row i+1, and no other row) is
skipped" is therefore violated. -/
theorem c2_tp_pair_consumes_two_extra_rows :
    ((scanNotebook tC2 none 2 3).map
        fun st => (st.tps.length, st.sweeps.map Prod.fst)) = .ok (1, [2])
    ∧ ((scanNotebook tC2 none 2 3).map
        fun st => st.tps.map fun r => (r 2 0, r 3 0)) = .ok [(some 5, some 7)]
    ∧ scanNotebook tC2b none 2 3 = .error .stopIteration :=
  ⟨rfl, rfl, rfl⟩

/-- C10: when the scan reaches the table's final row and that row carries a
finite nonzero discriminant (a test-pulse record at the boundary), the
unconditional iterator advance of the merge branch hits an exhausted
iterator: the scan fails with `StopIteration` — no block is produced and the
row is not silently skipped.  (The `i < len - 1` guard protects only the
legacy heuristic path, which is not taken when the discriminant is finite.) -/
theorem c10_trailing_discriminant_tp_fails (t : NBTable) (e peak dur : Nat)
    (st : ScanSt) (v : ℚ) (hv : t.row (t.nRows - 1) e 0 = some v) (hnz : v ≠ 0) :
    scanAux t (some e) peak dur [t.nRows - 1] st = .error .stopIteration
    ∧ (t.nRows = 1 → scanNotebook t (some e) peak dur = .error .stopIteration) := by
  have hc : classifyRow t (some e) peak dur (t.nRows - 1) = .tpDisc := by
    simp [classifyRow, hv, hnz]
  have hstep : ∀ (st' : ScanSt),
      scanAux t (some e) peak dur [t.nRows - 1] st' = .error .stopIteration := by
    intro st'
    rw [scanAux.eq_2, hc]
  refine ⟨hstep st, fun h1 => ?_⟩
  unfold scanNotebook
  rw [h1]
  have h2 := hstep ⟨[], []⟩
  rw [h1] at h2
  simpa using h2

/-- Witness for `c10_trailing_discriminant_tp_fails` on a one-row table whose
row has discriminant value 1 at field 1. -/
theorem c10_trailing_discriminant_tp_fails_witness :
    scanAux tC10 (some 1) 2 3 [0] ⟨[], []⟩ = .error .stopIteration
    ∧ scanNotebook tC10 (some 1) 2 3 = .error .stopIteration := by
  have h := c10_trailing_discriminant_tp_fails tC10 1 2 3 ⟨[], []⟩ 1 rfl (by norm_num)
  exact ⟨h.1, h.2 rfl⟩

theorem mkTPEntry_error (keys : TPKeys) (r : Row) (e : PyErr)
    (h : mkTPEntry keys r = .error e) : e ≠ .attributeError := by
  unfold mkTPEntry at h
  repeat' split at h
  all_goals try (injection h with h2)
  all_goals try subst h2
  all_goals try (cases h)
  all_goals decide

theorem buildTPEntries_error (keys : TPKeys) :
    ∀ (rows : List Row) (e : PyErr),
      buildTPEntries keys rows = .error e → e ≠ .attributeError := by
  intro rows
  induction rows with
  | nil => intro e h; cases h
  | cons r rs ih =>
    intro e h
    cases hm : mkTPEntry keys r with
    | error e' =>
      simp only [buildTPEntries, hm] at h
      injection h with h2
      exact h2 ▸ mkTPEntry_error keys r e' hm
    | ok entry =>
      simp only [buildTPEntries, hm] at h
      cases hb : buildTPEntries keys rs with
      | error e'' =>
        rw [hb] at h
        injection h with h2
        exact h2 ▸ ih e'' hb
      | ok l =>
        rw [hb] at h
        cases h

/-- C9: on a freshly constructed file object `test_pulse_entries()` fails
with `AttributeError` (the `_tp_entries`, `_tp_notebook` and `_notebook_keys`
attributes are created only inside `notebook()`); after one successful
`notebook()` call it no longer can fail that way, and a successful result is
memoized: calling it again on the updated object returns the same list and
leaves the object unchanged. -/
theorem c9_tp_entries_requires_notebook (t : NBTable) (est : Option Nat)
    (peak dur : Nat) (keys : TPKeys) :
    (initMiesNwb t est peak dur keys).test_pulse_entries = .error .attributeError
    ∧ (∀ nb s', (initMiesNwb t est peak dur keys).notebook = .ok (nb, s') →
        (∀ e, s'.test_pulse_entries = .error e → e ≠ .attributeError)
        ∧ ∀ l s'', s'.test_pulse_entries = .ok (l, s'') →
            s''.test_pulse_entries = .ok (l, s'')) := by
  constructor
  · rfl
  · intro nb s' h
    unfold MiesNwbSt.notebook at h
    simp only [initMiesNwb] at h
    cases hscan : scanNotebook t est peak dur with
    | error e2 =>
      rw [hscan] at h
      cases h
    | ok st =>
      rw [hscan] at h
      injection h with h2
      rw [Prod.ext_iff] at h2
      obtain ⟨h3, h4⟩ := h2
      subst h4
      constructor
      · intro e he
        unfold MiesNwbSt.test_pulse_entries at he
        simp only at he
        cases hb : buildTPEntries keys st.tps with
        | error e3 =>
          rw [hb] at he
          injection he with h5
          exact h5 ▸ buildTPEntries_error keys st.tps e3 hb
        | ok l =>
          rw [hb] at he
          cases he
      · intro l s'' he
        unfold MiesNwbSt.test_pulse_entries at he
        simp only at he
        cases hb : buildTPEntries keys st.tps with
        | error e3 =>
          rw [hb] at he
          cases he
        | ok l2 =>
          rw [hb] at he
          injection he with h5
          rw [Prod.ext_iff] at h5
          obtain ⟨h6, h7⟩ := h5
          subst h6
          subst h7
          rfl

/-- Witness for `c9_tp_entries_requires_notebook` on a concrete two-row file
whose single test-pulse block has a finite timestamp: before `notebook()` the
call fails with `AttributeError`; after it, the call succeeds and is
memoized. -/
theorem c9_tp_entries_requires_notebook_witness :
    initC9.test_pulse_entries = .error .attributeError
    ∧ initC9.notebook = .ok (nbC9, sC9)
    ∧ sC9.test_pulse_entries = .ok (lC9, sC9b)
    ∧ sC9b.test_pulse_entries = .ok (lC9, sC9b) := by
  have h := c9_tp_entries_requires_notebook tC9 (some 2) 6 7 keysC9
  have hnb : initC9.notebook = .ok (nbC9, sC9) := rfl
  have htp : sC9.test_pulse_entries = .ok (lC9, sC9b) := rfl
  exact ⟨h.1, hnb, htp, (h.2 nbC9 sC9 hnb).2 lC9 sC9b htp⟩

end Mies
